import Mathlib

set_option maxHeartbeats 1600000

/- Shallow embedding of the LinkedIn alumni scraping pipeline
   (alumni_details_scraper.py, people_alumni_scraper.py,
   alumni_profile_scraper.py, clean_and_analyze_alumni.py).
   Pure parsing/merging helpers become Lean functions; the browser-driven
   code becomes explicit state passing over abstract page states; Python
   exceptions become Option/Except results. -/

/- ───────────────────────── JSON values ─────────────────────────
   Model of the values produced by Python json.loads on the inputs in
   play (objects, arrays, strings, integers, booleans, null). -/

inductive JVal : Type where
  | jnull : JVal
  | jbool : Bool → JVal
  | jnum : Int → JVal
  | jstr : String → JVal
  | jarr : List JVal → JVal
  | jobj : List (String × JVal) → JVal

/- Model of json.loads: recursive-descent parser that accepts exactly one
   JSON value, allows surrounding whitespace, and rejects trailing data
   (json.loads raises on extra data; a raise is modelled as none). -/

def jsonWs (c : Char) : Bool := c = ' ' || c = '\t' || c = '\n' || c = '\r'

def skipWs : List Char → List Char
  | [] => []
  | c :: cs => if jsonWs c then skipWs cs else c :: cs

def jsonEscChar (c : Char) : Char :=
  if c = 'n' then '\n'
  else if c = 't' then '\t'
  else if c = 'r' then '\r'
  else if c = 'b' then '\x08'
  else if c = 'f' then '\x0c'
  else c

def parseJStr : List Char → Option (List Char × List Char)
  | [] => none
  | '"' :: rest => some ([], rest)
  | '\\' :: c :: rest =>
    match parseJStr rest with
    | some (s, r) => some (jsonEscChar c :: s, r)
    | none => none
  | c :: rest =>
    match parseJStr rest with
    | some (s, r) => some (c :: s, r)
    | none => none

def takeDigits : List Char → List Char × List Char
  | [] => ([], [])
  | c :: cs =>
    if c.isDigit then
      let p := takeDigits cs
      (c :: p.1, p.2)
    else ([], c :: cs)

def digitsVal (l : List Char) : Nat := l.foldl (fun a c => a * 10 + (c.toNat - 48)) 0

def parseJNum : List Char → Option (Int × List Char)
  | '-' :: rest =>
    match takeDigits rest with
    | ([], _) => none
    | (ds, r) => some (-(digitsVal ds : Int), r)
  | l =>
    match takeDigits l with
    | ([], _) => none
    | (ds, r) => some ((digitsVal ds : Int), r)

def parseJLit : List Char → Option (JVal × List Char)
  | 't' :: 'r' :: 'u' :: 'e' :: r => some (.jbool true, r)
  | 'f' :: 'a' :: 'l' :: 's' :: 'e' :: r => some (.jbool false, r)
  | 'n' :: 'u' :: 'l' :: 'l' :: r => some (.jnull, r)
  | _ => none

mutual

def parseJVal : Nat → List Char → Option (JVal × List Char)
  | 0, _ => none
  | fuel + 1, l =>
    match skipWs l with
    | [] => none
    | '"' :: rest =>
      match parseJStr rest with
      | some (s, r) => some (.jstr (String.mk s), r)
      | none => none
    | '\x7b' :: rest => parseJObjItems fuel rest
    | '[' :: rest => parseJArrItems fuel rest
    | c :: rest =>
      if c = '-' || c.isDigit then
        match parseJNum (c :: rest) with
        | some (n, r) => some (.jnum n, r)
        | none => none
      else parseJLit (c :: rest)

def parseJArrItems : Nat → List Char → Option (JVal × List Char)
  | 0, _ => none
  | fuel + 1, l =>
    match skipWs l with
    | ']' :: r => some (.jarr [], r)
    | l2 =>
      match parseJVal fuel l2 with
      | some (v, r) =>
        match parseJArrRest fuel r with
        | some (vs, r2) => some (.jarr (v :: vs), r2)
        | none => none
      | none => none

def parseJArrRest : Nat → List Char → Option (List JVal × List Char)
  | 0, _ => none
  | fuel + 1, l =>
    match skipWs l with
    | ']' :: r => some ([], r)
    | ',' :: r =>
      match parseJVal fuel r with
      | some (v, r2) =>
        match parseJArrRest fuel r2 with
        | some (vs, r3) => some (v :: vs, r3)
        | none => none
      | none => none
    | _ => none

def parseJPair : Nat → List Char → Option ((String × JVal) × List Char)
  | 0, _ => none
  | fuel + 1, l =>
    match skipWs l with
    | '"' :: rest =>
      match parseJStr rest with
      | some (k, r) =>
        match skipWs r with
        | ':' :: r2 =>
          match parseJVal fuel r2 with
          | some (v, r3) => some ((String.mk k, v), r3)
          | none => none
        | _ => none
      | none => none
    | _ => none

def parseJObjItems : Nat → List Char → Option (JVal × List Char)
  | 0, _ => none
  | fuel + 1, l =>
    match skipWs l with
    | '\x7d' :: r => some (.jobj [], r)
    | l2 =>
      match parseJPair fuel l2 with
      | some (kv, r) =>
        match parseJObjRest fuel r with
        | some (kvs, r2) => some (.jobj (kv :: kvs), r2)
        | none => none
      | none => none

def parseJObjRest : Nat → List Char → Option (List (String × JVal) × List Char)
  | 0, _ => none
  | fuel + 1, l =>
    match skipWs l with
    | '\x7d' :: r => some ([], r)
    | ',' :: r =>
      match parseJPair fuel r with
      | some (kv, r2) =>
        match parseJObjRest fuel r2 with
        | some (kvs, r3) => some (kv :: kvs, r3)
        | none => none
      | none => none
    | _ => none

end

def jsonLoads (s : String) : Option JVal :=
  match parseJVal (s.length + 1) s.data with
  | some (v, rest) => if (skipWs rest).isEmpty then some v else none
  | none => none

/- ───────────── Vision response parsing (call_vision) ─────────────
   Embedding of the parse chain of call_vision in alumni_details_scraper.py
   (lines 87-117): (1) json.loads on the raw text, (2) strip leading and
   trailing code fences and retry, (3) json.loads on the re.search match of
   the pattern open-brace .* close-brace (DOTALL), which spans from the
   first opening brace to the last closing brace; every json.JSONDecodeError
   is handled in the chain and any final failure raises a ValueError that
   the surrounding handler turns into an empty dict. -/

def backtick : Char := Char.ofNat 96

def isPySpace (c : Char) : Bool :=
  c = ' ' || c = '\t' || c = '\n' || c = '\r' || c = '\x0b' || c = '\x0c'

/- Model of Python str.strip with no arguments. -/
def pyStrip (l : List Char) : List Char :=
  ((l.dropWhile isPySpace).reverse.dropWhile isPySpace).reverse

/- Matches cleaned.startswith of three backticks. -/
def startsWithFence : List Char → Bool
  | a :: b :: c :: _ => a = backtick && b = backtick && c = backtick
  | _ => false

/- Model of re.sub of anchored triple-backtick plus ASCII letters with
   the empty string: drops the leading fence and an optional language tag. -/
def dropLeadFence (l : List Char) : List Char :=
  if startsWithFence l then (l.drop 3).dropWhile Char.isAlpha else l

/- Model of re.sub of triple-backtick anchored at the end with the empty
   string (the input here never ends in a newline, because it was produced
   by str.strip and the leading substitution does not touch the tail). -/
def dropTailFence (l : List Char) : List Char :=
  if l.reverse.take 3 = [backtick, backtick, backtick] then l.take (l.length - 3) else l

/- Lines 96-100 of alumni_details_scraper.py. -/
def stripFences (content : List Char) : List Char :=
  let cleaned := pyStrip content
  if startsWithFence cleaned then pyStrip (dropTailFence (dropLeadFence cleaned))
  else cleaned

/- Model of re.search of the pattern open-brace .* close-brace with
   re.S: the match runs from the first opening brace that has a closing
   brace after it to the last closing brace of the text. -/
def firstBraceSpan (l : List Char) : Option (List Char) :=
  match l.findIdx? (· = '\x7b'), l.reverse.findIdx? (· = '\x7d') with
  | some i, some k =>
    let j := l.length - 1 - k
    if i < j then some ((l.drop i).take (j - i + 1)) else none
  | _, _ => none

/- The full fallback chain of call_vision (alumni_details_scraper.py,
   lines 89-114); none models the ValueError path. -/
def callVisionParse (content : String) : Option JVal :=
  match jsonLoads content with
  | some v => some v
  | none =>
    let cleaned := String.mk (stripFences content.data)
    match jsonLoads cleaned with
    | some v => some v
    | none =>
      match firstBraceSpan cleaned.data with
      | some span => jsonLoads (String.mk span)
      | none => none

/- call_vision as seen by its caller: the outer exception handler of
   lines 115-117 maps any parse failure to the empty dict. -/
def call_vision (content : String) : JVal :=
  (callVisionParse content).getD (JVal.jobj [])

/- ───────────── Record reconciliation (merge of channels) ─────────────
   Python dict update semantics: keys of the second dict win. Dicts are
   modelled as partial maps from field names to string values. -/

def pyUpdate (d e : String → Option String) : String → Option String :=
  fun k => match e k with
  | some v => some v
  | none => d k

/- Result of grab_dom_bits: the structural channel always defines both
   keys, initialised to the empty string (alumni_details_scraper.py line
   166, people_alumni_scraper.py line 146). -/
structure DomBits where
  profile_pic : String
  email : String

def domBitsDict (d : DomBits) : String → Option String :=
  fun k =>
    if k = "profile_pic" then some d.profile_pic
    else if k = "email" then some d.email
    else none

/- Merge order of scrape_profile in alumni_details_scraper.py (lines
   240-309): the vision payloads are folded into data first and
   data.update(grab_dom_bits(..)) runs last, so the structural dict wins. -/
def scrape_profile_merge_details (vis : String → Option String) (dom : DomBits) :
    String → Option String :=
  pyUpdate vis (domBitsDict dom)

/- Merge order of scrape_profile in people_alumni_scraper.py (line 194):
   the returned dict is built with dom spread first and vis spread second,
   so the vision payload wins on shared keys. -/
def scrape_profile_merge_people (dom : DomBits) (vis : String → Option String) :
    String → Option String :=
  pyUpdate (domBitsDict dom) vis

/- ───────────── Progressive scroll loop (Page Loader) ─────────────
   Embedding of ensure_sections_loaded (alumni_details_scraper.py lines
   152-160) and scroll_full_page (people_alumni_scraper.py lines 131-140):
   both run the same unbounded while-True loop that scrolls by 600, reads
   seen = pageYOffset + innerHeight and total = document.body.scrollHeight,
   and breaks when seen is at least total or seen equals the previous
   value. The page is modelled by the per-iteration observations. -/

structure PageTrace where
  seen : Nat → Nat
  total : Nat → Nat

/- The loop, instrumented with fuel: some k means the loop broke during
   iteration k; none means the loop was still running when the fuel ran
   out. The Python loop has no iteration bound of its own. -/
def scrollLoopAux (p : PageTrace) : Nat → Nat → Nat → Option Nat
  | 0, _, _ => none
  | fuel + 1, k, last =>
    if p.seen k ≥ p.total k ∨ p.seen k = last then some k
    else scrollLoopAux p fuel (k + 1) (p.seen k)

def scrollLoop (p : PageTrace) (fuel : Nat) : Option Nat := scrollLoopAux p fuel 0 0

/- The loop terminates on a page trace when some amount of fuel suffices. -/
def scrollTerminates (p : PageTrace) : Prop := ∃ fuel, (scrollLoop p fuel).isSome

/- Simulated infinite scroll: every step moves the viewport down by the
   full 600-pixel increment and the reported document height stays ahead
   of the viewport forever. -/
def growPage : PageTrace :=
  { seen := fun k => 600 * (k + 1), total := fun k => 600 * (k + 2) }

/- ───────────── Connection-count cleaning (Normalizer) ─────────────
   Embedding of _clean_connections (clean_and_analyze_alumni.py lines
   61-68). A raw cell is NaN, a number, or a string; the string branch
   removes commas and takes the first run of digits. -/

inductive CellVal : Type where
  | na : CellVal
  | num : Int → CellVal
  | str : String → CellVal

/- Model of DIGITS_PATTERN.search: the first maximal run of digits. -/
def firstDigitRun : List Char → Option (List Char)
  | [] => none
  | c :: cs => if c.isDigit then some (c :: cs.takeWhile Char.isDigit) else firstDigitRun cs

def clean_connections : CellVal → Option Int
  | .na => none
  | .num n => some n
  | .str s =>
    match firstDigitRun (s.data.filter (fun c => ¬ c = ',')) with
    | some ds => some (digitsVal ds : Int)
    | none => none

/- ───────────── Date and experience parsing (Normalizer) ───────────── -/

structure PDate where
  year : Nat
  month : Nat
  day : Nat
deriving DecidableEq

/- Character-level lowercasing (the kernel-reducible counterpart of
   str.lower, which this pipeline only applies to ASCII tokens). -/
def lowerStr (s : String) : String := String.mk (s.data.map Char.toLower)

def monthOfName (s : String) : Option Nat :=
  let t := lowerStr s
  if t = "jan" ∨ t = "january" then some 1
  else if t = "feb" ∨ t = "february" then some 2
  else if t = "mar" ∨ t = "march" then some 3
  else if t = "apr" ∨ t = "april" then some 4
  else if t = "may" then some 5
  else if t = "jun" ∨ t = "june" then some 6
  else if t = "jul" ∨ t = "july" then some 7
  else if t = "aug" ∨ t = "august" then some 8
  else if t = "sep" ∨ t = "september" then some 9
  else if t = "oct" ∨ t = "october" then some 10
  else if t = "nov" ∨ t = "november" then some 11
  else if t = "dec" ∨ t = "december" then some 12
  else none

def yearOfToken (s : String) : Option Nat :=
  if s.length = 4 ∧ s.data.all Char.isDigit then some (digitsVal s.data) else none

def spaceToks : List Char → List (List Char)
  | [] => [[]]
  | c :: cs =>
    if c = ' ' then [] :: spaceToks cs
    else
      match spaceToks cs with
      | t :: ts => (c :: t) :: ts
      | [] => [[c]]

/-- Modelled from the spec: the external best-effort natural-language date
parser (dateutil.parser.parse called with default datetime(1900, 1, 1)),
which is library code not present under src/. It recognises an English
month name (full or three-letter form, case-insensitively), optionally
followed by a four-digit year, or a bare four-digit year, filling any
unspecified component from the 1900-01-01 default (so the day defaults to
the first of the month); any other token fails, and a failure models the
exception the library raises. -/
def dateutilParse (token : String) : Option PDate :=
  match ((spaceToks token.data).map String.mk).filter (fun t => ¬ t.isEmpty) with
  | [a, b] =>
    match monthOfName a, yearOfToken b with
    | some m, some y => some ⟨y, m, 1⟩
    | _, _ => none
  | [a] =>
    match monthOfName a with
    | some m => some ⟨1900, m, 1⟩
    | none =>
      match yearOfToken a with
      | some y => some ⟨y, 1, 1⟩
      | none => none
  | _ => none

/- Embedding of _parse_date (clean_and_analyze_alumni.py lines 86-94):
   strip, map the open-ended tokens to None, otherwise call the date
   parser with every exception degraded to None. -/
def parse_date (token : String) : Option PDate :=
  let t := String.mk (pyStrip token.data)
  if lowerStr t = "present" ∨ lowerStr t = "current" ∨ lowerStr t = "now" then none
  else dateutilParse t

def isDashChar (c : Char) : Bool := c = '–' || c = '-'

/- Model of re.split on the dash class with maxsplit 1: split at the first
   en-dash or hyphen, if any. -/
def splitFirstDash : List Char → Option (List Char × List Char)
  | [] => none
  | c :: cs =>
    if isDashChar c then some ([], cs)
    else
      match splitFirstDash cs with
      | some (a, b) => some (c :: a, b)
      | none => none

/- Embedding of _split_date_range (clean_and_analyze_alumni.py lines
   97-101). -/
def split_date_range (s : String) : Option PDate × Option PDate :=
  match splitFirstDash s.data with
  | some (a, b) => (parse_date (String.mk (pyStrip a)), parse_date (String.mk (pyStrip b)))
  | none => (parse_date (String.mk (pyStrip s.data)), none)

structure ExpRow where
  title : String
  company : String
  start_date : Option PDate
  end_date : Option PDate
deriving DecidableEq

/- Model of re.match on the experience pattern title .*? at-sign company
   .*? dash dates .*: the match succeeds at the first at-sign that still
   has a dash after it; the company part ends at the first dash after that
   at-sign and the dates part is the rest, each group stripped. -/
def splitAtExpAt : List Char → Option (List Char × List Char)
  | [] => none
  | c :: cs =>
    if c = '@' ∧ cs.any isDashChar then some ([], cs)
    else
      match splitAtExpAt cs with
      | some (a, b) => some (c :: a, b)
      | none => none

/- Embedding of the per-item decomposition inside _parse_experience
   (clean_and_analyze_alumni.py lines 122-131): on a regex match the
   title, company and date-range groups are stripped and the range is
   split into start and end dates; otherwise title and company both fall
   back to the whole item and the dates are None. -/
def parse_experience_item (item : String) : ExpRow :=
  match splitAtExpAt item.data with
  | some (t, rest) =>
    match splitFirstDash rest with
    | some (comp, dates) =>
      let r := split_date_range (String.mk (pyStrip dates))
      { title := String.mk (pyStrip t), company := String.mk (pyStrip comp),
        start_date := r.1, end_date := r.2 }
    | none => { title := item, company := item, start_date := none, end_date := none }
  | none => { title := item, company := item, start_date := none, end_date := none }

/- ───────────── List flattening and explosion (C8) ─────────────
   scrape_profile stores list-valued vision fields as a single string
   joined with the two-character delimiter of a semicolon and a space
   (alumni_details_scraper.py lines 287 and 292, people_alumni_scraper.py
   line 193), and _explode_series (clean_and_analyze_alumni.py lines
   104-113) splits such a cell back into stripped, non-empty items with a
   1-based sequence number per profile identifier. -/

def joinSemi : List (List Char) → List Char
  | [] => []
  | [x] => x
  | x :: xs => x ++ ';' :: ' ' :: joinSemi xs

/- Model of str.split on the semicolon-space delimiter: scan left to
   right, cutting at each occurrence of the delimiter. -/
def splitSemi : List Char → List Char → List (List Char)
  | acc, [] => [acc.reverse]
  | acc, [c] => [(c :: acc).reverse]
  | acc, c :: d :: rest =>
    if c = ';' ∧ d = ' ' then acc.reverse :: splitSemi [] rest
    else splitSemi (c :: acc) (d :: rest)

/- True when the list contains the semicolon-space delimiter. -/
def hasSemiSep : List Char → Bool
  | [] => false
  | [_] => false
  | c :: d :: rest => if c = ';' ∧ d = ' ' then true else hasSemiSep (d :: rest)

structure ChildRow where
  linkedin_profile : String
  seq : Nat
  value : List Char
deriving DecidableEq

/- Embedding of the per-cell body of _explode_series: guard away blank
   cells, split on the delimiter, strip every piece, keep the non-empty
   ones and number them from 1. -/
def explode_cell (link : String) (cell : List Char) : List ChildRow :=
  if (pyStrip cell).isEmpty then []
  else
    let items := ((splitSemi [] cell).map pyStrip).filter (fun i => ¬ i.isEmpty)
    (items.enumFrom 1).map (fun p => { linkedin_profile := link, seq := p.1, value := p.2 })

/- ───────────── Contact-info lookup (Structural Extractor, C9) ─────────────
   The page, as far as the email lookup can observe it: whether the
   contact-info trigger control exists, whether the modal shows up within
   the bounded wait, the mailto address inside the modal if any, and
   whether the modal exposes its Dismiss control. -/

structure ContactPage where
  trigger_present : Bool
  modal_appears : Bool
  email_link : Option String
  dismiss_present : Bool

structure ContactOutcome where
  email : String
  modal_open : Bool
deriving DecidableEq

inductive ScrapeErr : Type where
  | timeout : ScrapeErr
deriving DecidableEq

/- Embedding of the contact-info block of grab_profile_data
   (alumni_profile_scraper.py lines 107-137): a missing trigger raises
   NoSuchElementException which the outer handler swallows; a modal that
   never appears raises TimeoutException which the inner handler swallows;
   a missing mailto anchor leaves the email empty; the Dismiss click is
   wrapped in its own handler, so a missing Dismiss control is swallowed
   and the modal stays open. -/
def grab_profile_contact (p : ContactPage) : ContactOutcome :=
  if ¬ p.trigger_present then { email := "", modal_open := false }
  else if ¬ p.modal_appears then { email := "", modal_open := false }
  else
    { email := p.email_link.getD "",
      modal_open := ¬ p.dismiss_present }

/- Embedding of the email part of grab_dom_bits (alumni_details_scraper.py
   lines 181-200): the only handler around the block catches
   NoSuchElementException, so a missing trigger or a missing Dismiss
   control is swallowed (the latter with the modal still open), while the
   TimeoutException of a modal that never appears escapes the function. -/
def grab_dom_bits_contact (p : ContactPage) : Except ScrapeErr ContactOutcome :=
  if ¬ p.trigger_present then .ok { email := "", modal_open := false }
  else if ¬ p.modal_appears then .error .timeout
  else
    .ok { email := p.email_link.getD "",
          modal_open := ¬ p.dismiss_present }

/- The caller of grab_dom_bits (scrape_profile, alumni_details_scraper.py
   lines 303-306) wraps the call in a catch-all handler; on an escaped
   exception the update is skipped, so the record keeps empty fields and
   no modal was ever opened. -/
def scrape_profile_contact (p : ContactPage) : ContactOutcome :=
  match grab_dom_bits_contact p with
  | .ok o => o
  | .error _ => { email := "", modal_open := false }

/- ───────────── Output store and header writing (C10) ─────────────
   The store is a list of CSV lines; the absent file is None. Opening in
   append mode creates the file, and the header is written exactly when
   the condition of the respective script holds. -/

inductive CsvLine (α : Type) : Type where
  | header : CsvLine α
  | data : α → CsvLine α

def isHeaderLine {α : Type} : CsvLine α → Bool
  | .header => true
  | .data _ => false

/- Header condition of alumni_details_scraper.py line 337, evaluated
   before the file is opened: the file does not exist or has size zero. -/
def writeHeaderCondPre {α : Type} (store : Option (List (CsvLine α))) : Bool :=
  store.isNone || (store.getD []).isEmpty

/- Header condition of people_alumni_scraper.py line 220 and
   alumni_profile_scraper.py line 168, evaluated after open("a") has
   already created the file: the existence test can no longer fail, so
   only the size-zero test matters. -/
def writeHeaderCondPost {α : Type} (store : Option (List (CsvLine α))) : Bool :=
  (store.getD []).isEmpty

/- One run against the output store: open in append mode (creating the
   missing file), write the header when the store is new or empty, then
   append one data row per processed profile. -/
def openAppendRun {α : Type} (store : Option (List (CsvLine α))) (rows : List α) :
    List (CsvLine α) :=
  let f := store.getD []
  (if writeHeaderCondPre store then f ++ [CsvLine.header] else f) ++ rows.map CsvLine.data

/- A sequence of runs, each appending its rows to the same store. -/
def applyRuns {α : Type} (runs : List (List α)) : Option (List (CsvLine α)) :=
  runs.foldl (fun st rs => some (openAppendRun st rs)) none

/- ───────────── Resumable collection loop (C1, C2) ─────────────
   Embedding of main in alumni_details_scraper.py (lines 313-371) and
   people_alumni_scraper.py (lines 197-250), restricted to the columns the
   claims are about: a roster entry is reduced to its linkedin_profile
   url, and an output row is the url paired with the written extraction
   fields. The per-profile outcome function models drv.get plus
   scrape_profile: some pdata on success, none when a TimeoutException or
   WebDriverException was caught (lines 358-360). -/

def out_extraction_cols : List String :=
  ["current_title", "current_company", "second_title", "second_company",
   "third_title", "third_company", "location", "connections", "headline",
   "profile_pic", "email", "experience", "education", "licenses", "volunteering"]

/- Model of csv.DictWriter.writerow with the default restval: every
   extraction column is written, missing keys as the empty string. -/
def writeRowFields (pdata : List (String × String)) : List (String × String) :=
  out_extraction_cols.map (fun c => (c, (pdata.lookup c).getD ""))

def validUrl (u : String) : Bool := u.data.take 4 = ['h', 't', 't', 'p']

structure LoopState : Type where
  store : List (String × List (String × String))
  done : List String

/- Lines 348-365 of alumni_details_scraper.py: skip invalid or completed
   urls; otherwise scrape (a caught exception leaving pdata empty), write
   and flush exactly one row, and add the url to the done set. -/
def process_entry (outcome : String → Option (List (String × String)))
    (st : LoopState) (url : String) : LoopState :=
  if ¬ validUrl url = true ∨ url ∈ st.done then st
  else
    { store := st.store ++ [(url, writeRowFields ((outcome url).getD []))],
      done := url :: st.done }

def run_loop (outcome : String → Option (List (String × String)))
    (st : LoopState) (roster : List String) : LoopState :=
  roster.foldl (process_entry outcome) st

/- The resumption set is re-read from the output store at run start
   (lines 331-334): the set of identifiers of its rows. -/
def storeIds (store : List (String × List (String × String))) : List String :=
  store.map Prod.fst

/- One (possibly interrupted) run: rebuild the done set from the store,
   then process the first k roster entries. -/
def run_from_store (outcome : String → Option (List (String × String)))
    (store : List (String × List (String × String)))
    (roster : List String) (k : Nat) : List (String × List (String × String)) :=
  (run_loop outcome { store := store, done := storeIds store } (roster.take k)).store

/- Any number of interrupted and resumed runs over one store, each run
   with its own per-profile outcomes and interruption point. -/
def run_sequence (roster : List String)
    (runs : List (Nat × (String → Option (List (String × String))))) :
    List (String × List (String × String)) :=
  runs.foldl (fun store r => run_from_store r.2 store roster r.1) []

/- ───────────── The people_alumni variant of call_vision ─────────────
   Embedding of call_vision in people_alumni_scraper.py (lines 105-111):
   this variant has no fallback chain. When the text contains a triple
   backtick fence it keeps txt.split of the fence at index 1 when the text
   starts with a fence (which keeps the language tag) and at index 0
   otherwise, then attempts one json.loads; any exception, including the
   parse failure, yields the empty dict. -/

def splitFence : List Char → List Char → List (List Char)
  | acc, [] => [acc.reverse]
  | acc, [c] => [(c :: acc).reverse]
  | acc, [c, d] => [(d :: c :: acc).reverse]
  | acc, c :: d :: e :: rest =>
    if c = backtick ∧ d = backtick ∧ e = backtick then acc.reverse :: splitFence [] rest
    else splitFence (c :: acc) (d :: e :: rest)

/- Model of the Python membership test of a triple-backtick fence. -/
def hasFence : List Char → Bool
  | [] => false
  | [_] => false
  | [_, _] => false
  | c :: d :: e :: rest =>
    if c = backtick ∧ d = backtick ∧ e = backtick then true
    else hasFence (d :: e :: rest)

/- Lines 106-107 of people_alumni_scraper.py: the single fence-stripping
   step applied to the response text. -/
def peopleFenceStrip (txt : List Char) : List Char :=
  if hasFence txt then
    if startsWithFence txt then ((splitFence [] txt).drop 1).headD []
    else (splitFence [] txt).headD []
  else txt

def call_vision_people (content : String) : JVal :=
  (jsonLoads (String.mk (peopleFenceStrip content.data))).getD (JVal.jobj [])

/- ───────────── The alumni_profile variant of the loop ─────────────
   Embedding of main in alumni_profile_scraper.py (lines 174-194): the done
   set is read from the store at startup only, the loop skips urls already
   in it, and — unlike the other two mains — it never adds the url it has
   just written to the set, so the done set stays constant for the whole
   run. The roster it iterates was only cleaned with drop_duplicates, which
   removes fully identical rows, so two roster rows that differ in a name
   column can still carry the same profile identifier. -/

def process_entry_profile (outcome : String → List (String × String))
    (st : LoopState) (url : String) : LoopState :=
  if url ∈ st.done then st
  else { store := st.store ++ [(url, outcome url)], done := st.done }

def run_loop_profile (outcome : String → List (String × String))
    (st : LoopState) (roster : List String) : LoopState :=
  roster.foldl (process_entry_profile outcome) st

/- ───────────── Concrete inputs used by the theorems ───────────── -/

def fencedVisionResponse : String :=
  "```json\n\x7b \"current_title\": \"Engineer\" \x7d\n```\nHere is the requested JSON."

def modalNoDismiss : ContactPage :=
  { trigger_present := true, modal_appears := true,
    email_link := some "a@x.com", dismiss_present := false }

def noTriggerPage : ContactPage :=
  { trigger_present := false, modal_appears := false,
    email_link := none, dismiss_present := true }


/-- C9 counterexample: on a page state where the contact modal appears but
exposes no Dismiss control, both email lookups swallow the missing-control
exception and return with the modal still open, so the modal is not always
dismissed when it was opened. -/
theorem C9_counterexample :
    (grab_profile_contact modalNoDismiss).modal_open = true ∧
    grab_dom_bits_contact modalNoDismiss =
      .ok { email := "a@x.com", modal_open := true } :=
  ⟨rfl, rfl⟩

/-- C9 (amended): the email lookup is best-effort — when the trigger control
is absent or the modal never appears within its timeout the email stays empty
(in grab_profile_data every such exception is caught locally; in grab_dom_bits
a modal timeout raises a TimeoutException that escapes the function and is
caught by the calling scrape routine, which then keeps the fields empty) — and
the modal is dismissed after the lookup whenever its Dismiss control is
present; if the Dismiss control is absent the modal is left open. -/
theorem C9_contact_best_effort :
    ∀ p : ContactPage,
      ((p.trigger_present = false ∨ p.modal_appears = false) →
        grab_profile_contact p = { email := "", modal_open := false } ∧
        scrape_profile_contact p = { email := "", modal_open := false }) ∧
      (p.trigger_present = true → p.modal_appears = false →
        grab_dom_bits_contact p = .error .timeout) ∧
      (p.dismiss_present = true →
        (grab_profile_contact p).modal_open = false ∧
        (scrape_profile_contact p).modal_open = false) := by
  rintro ⟨t, m, e, d⟩
  cases t <;> cases m <;> cases d <;>
    simp [grab_profile_contact, scrape_profile_contact, grab_dom_bits_contact]


theorem C9_contact_best_effort_witness :
    grab_profile_contact noTriggerPage = { email := "", modal_open := false } :=
  ((C9_contact_best_effort noTriggerPage).1 (Or.inl rfl)).1


/-- C4 counterexample: call_vision in people_alumni_scraper.py has no
three-step fallback chain — with a fence present it never tries the raw
text, its single split keeps the language tag, and there is no brace-span
fallback — so on the claim's fenced-with-language-tag example it returns
the empty dict instead of the contained object. -/
theorem C4_counterexample :
    call_vision_people fencedVisionResponse = JVal.jobj [] ∧
    JVal.jobj [] ≠ JVal.jobj [("current_title", JVal.jstr "Engineer")] :=
  ⟨rfl, by simp⟩

/-- C4 (amended): call_vision in alumni_details_scraper.py applies the
ordered fallback chain — direct json.loads, retry after stripping
fenced-code markers with an optional language tag, then json.loads on the
first brace span — returns the empty dict when every step fails instead of
raising, and parses a fenced JSON object with a language tag and trailing
prose after the closing fence to that object; call_vision in
people_alumni_scraper.py instead applies one fence-stripping step (keeping
the language tag when the text starts with a fence) followed by a single
json.loads whose failure yields the empty dict, so the same fenced example
yields the empty dict there. -/
theorem C4_vision_fallback_chain :
    (∀ (s : String) (v : JVal), jsonLoads s = some v → callVisionParse s = some v) ∧
    (∀ (s : String) (v : JVal), jsonLoads s = none →
        jsonLoads (String.mk (stripFences s.data)) = some v → callVisionParse s = some v) ∧
    (∀ s : String, jsonLoads s = none →
        jsonLoads (String.mk (stripFences s.data)) = none →
        callVisionParse s =
          (match firstBraceSpan (stripFences s.data) with
           | some span => jsonLoads (String.mk span)
           | none => none)) ∧
    (∀ s : String, callVisionParse s = none → call_vision s = JVal.jobj []) ∧
    call_vision fencedVisionResponse =
      JVal.jobj [("current_title", JVal.jstr "Engineer")] ∧
    (∀ (s : String) (v : JVal),
        jsonLoads (String.mk (peopleFenceStrip s.data)) = some v →
        call_vision_people s = v) ∧
    (∀ s : String, jsonLoads (String.mk (peopleFenceStrip s.data)) = none →
        call_vision_people s = JVal.jobj []) ∧
    call_vision_people fencedVisionResponse = JVal.jobj [] := by
  refine ⟨?_, ?_, ?_, ?_, rfl, ?_, ?_, rfl⟩
  · intro s v h
    simp [callVisionParse, h]
  · intro s v h1 h2
    simp [callVisionParse, h1, h2]
  · intro s h1 h2
    simp [callVisionParse, h1, h2]
  · intro s h
    simp [call_vision, h]
  · intro s v h
    simp [call_vision_people, h]
  · intro s h
    simp [call_vision_people, h]

theorem C4_vision_fallback_chain_witness :
    callVisionParse "\x7b\x7d" = some (JVal.jobj []) :=
  C4_vision_fallback_chain.1 "\x7b\x7d" (JVal.jobj []) rfl

/-- C6: the experience decomposition maps the sample string to title, company
and month-resolution dates as claimed; an end token of present, current or
now (case-insensitively, after stripping) yields a None end date; and date
parsing degrades to None on any token the date parser rejects instead of
raising. -/
theorem C6_experience_decomposition :
    parse_experience_item "Senior Engineer @ Acme Corp – Jan 2019-Mar 2022" =
      { title := "Senior Engineer", company := "Acme Corp",
        start_date := some ⟨2019, 1, 1⟩, end_date := some ⟨2022, 3, 1⟩ } ∧
    parse_experience_item "Intern @ Acme Corp – Jun 2021-Present" =
      { title := "Intern", company := "Acme Corp",
        start_date := some ⟨2021, 6, 1⟩, end_date := none } ∧
    (∀ token : String,
        (lowerStr (String.mk (pyStrip token.data)) = "present" ∨
         lowerStr (String.mk (pyStrip token.data)) = "current" ∨
         lowerStr (String.mk (pyStrip token.data)) = "now") →
        parse_date token = none) ∧
    (∀ token : String, dateutilParse (String.mk (pyStrip token.data)) = none →
        parse_date token = none) := by
  refine ⟨rfl, rfl, ?_, ?_⟩
  · intro token h
    simp only [parse_date]
    rw [if_pos h]
  · intro token h
    simp only [parse_date]
    split
    · rfl
    · exact h

theorem C6_experience_decomposition_witness :
    parse_date "CURRENT" = none :=
  C6_experience_decomposition.2.2.1 "CURRENT" (Or.inr (Or.inl rfl))

theorem scrollLoopAux_growPage_none :
    ∀ fuel k, scrollLoopAux growPage fuel k (600 * k) = none := by
  intro fuel
  induction fuel with
  | zero => intro k; rfl
  | succ n ih =>
    intro k
    have h1 : ¬ (growPage.seen k ≥ growPage.total k ∨ growPage.seen k = 600 * k) := by
      simp only [growPage]
      omega
    simp only [scrollLoopAux, if_neg h1]
    have h2 : growPage.seen k = 600 * (k + 1) := rfl
    rw [h2]
    exact ih (k + 1)

/-- C5 counterexample: the progressive-scroll loop has no maximum iteration
bound, so on the simulated infinite-scroll page whose reported height keeps
growing ahead of the viewport it never stops: no amount of fuel makes the
embedded loop break. -/
theorem C5_counterexample : ¬ scrollTerminates growPage := by
  rintro ⟨fuel, h⟩
  have h0 : scrollLoop growPage fuel = scrollLoopAux growPage fuel 0 (600 * 0) := by
    simp [scrollLoop]
  rw [h0, scrollLoopAux_growPage_none fuel 0] at h
  simp at h

theorem scrollLoopAux_term (B : Nat) (p : PageTrace)
    (hmono : ∀ k, p.seen k ≤ p.seen (k + 1)) (hbd : ∀ k, p.seen k ≤ B) :
    ∀ fuel k last, last ≤ p.seen k → B + 1 - last ≤ fuel →
      (scrollLoopAux p fuel k last).isSome = true := by
  intro fuel
  induction fuel with
  | zero =>
    intro k last h1 h2
    have := hbd k
    omega
  | succ n ih =>
    intro k last h1 h2
    by_cases hc : p.seen k ≥ p.total k ∨ p.seen k = last
    · simp [scrollLoopAux, if_pos hc]
    · simp only [scrollLoopAux, if_neg hc]
      push_neg at hc
      have hlt : last < p.seen k := lt_of_le_of_ne h1 (fun e => hc.2 e.symm)
      exact ih (k + 1) (p.seen k) (hmono k) (by have := hbd k; omega)

/-- C5 (amended): the progressive-scroll loop stops when a scroll step
produces no further movement or the bottom is reached, and it terminates
within B + 2 iterations on every page whose reported scroll position is
nondecreasing and bounded by B; but it has no maximum iteration bound of its
own, and on a page whose reported height keeps growing ahead of a
still-moving viewport it never terminates. -/
theorem C5_scroll_termination (B : Nat) (p : PageTrace)
    (hmono : ∀ k, p.seen k ≤ p.seen (k + 1)) (hbd : ∀ k, p.seen k ≤ B) :
    (scrollLoop p (B + 2)).isSome = true := by
  have h0 : (0 : Nat) ≤ p.seen 0 := Nat.zero_le _
  exact scrollLoopAux_term B p hmono hbd (B + 2) 0 0 h0 (by omega)

theorem C5_scroll_termination_witness :
    (scrollLoop { seen := fun _ => 100, total := fun _ => 100 } 102).isSome = true :=
  C5_scroll_termination 100 { seen := fun _ => 100, total := fun _ => 100 }
    (fun _ => le_refl _) (fun _ => le_refl _)

theorem countP_map_data {α : Type} (rows : List α) :
    (rows.map (CsvLine.data)).countP isHeaderLine = 0 := by
  induction rows with
  | nil => rfl
  | cons r rs ih =>
    simp [List.countP_cons, isHeaderLine, ih]

theorem applyRuns_from_header {α : Type} :
    ∀ (runs : List (List α)) (ds : List α),
      runs.foldl (fun st rs => some (openAppendRun st rs))
          (some (CsvLine.header :: ds.map CsvLine.data)) =
        some (CsvLine.header :: (ds ++ runs.flatten).map CsvLine.data) := by
  intro runs
  induction runs with
  | nil => intro ds; simp
  | cons rs rest ih =>
    intro ds
    have hstep : openAppendRun (some (CsvLine.header :: ds.map CsvLine.data)) rs =
        CsvLine.header :: (ds ++ rs).map CsvLine.data := by
      simp [openAppendRun, writeHeaderCondPre]
    simp only [List.foldl_cons, hstep]
    rw [ih (ds ++ rs)]
    simp

/-- C10: a run writes the CSV header exactly when the output store is new or
has size zero at open time (the pre-open test of alumni_details_scraper.py
and the post-open test of the other two scripts agree, because append-mode
open creates an empty file), so across every sequence of runs appending to
the same store the header appears exactly once, as the first line, and every
resumed run over a non-empty store appends only data rows. -/
theorem C10_header_once :
    (∀ (α : Type) (store : Option (List (CsvLine α))),
        writeHeaderCondPre store = writeHeaderCondPost store) ∧
    (∀ (α : Type) (store : Option (List (CsvLine α))) (rows : List α),
        (openAppendRun store rows).countP isHeaderLine =
          (store.getD []).countP isHeaderLine +
            (if writeHeaderCondPre store then 1 else 0)) ∧
    (∀ (α : Type) (runs : List (List α)), runs ≠ [] →
        applyRuns runs = some (CsvLine.header :: runs.flatten.map CsvLine.data)) := by
  refine ⟨?_, ?_, ?_⟩
  · intro α store
    cases store <;> simp [writeHeaderCondPre, writeHeaderCondPost]
  · intro α store rows
    by_cases h : writeHeaderCondPre store
    · simp [openAppendRun, h, List.countP_append, countP_map_data, isHeaderLine]
    · simp [openAppendRun, h, List.countP_append, countP_map_data, isHeaderLine]
  · intro α runs hne
    match runs with
    | rs :: rest =>
      have hfirst : openAppendRun (none : Option (List (CsvLine α))) rs =
          CsvLine.header :: rs.map CsvLine.data := by
        simp [openAppendRun, writeHeaderCondPre]
      calc applyRuns (rs :: rest)
          = rest.foldl (fun st r => some (openAppendRun st r))
              (some (CsvLine.header :: rs.map CsvLine.data)) := by
            simp [applyRuns, hfirst]
        _ = some (CsvLine.header :: (rs ++ rest.flatten).map CsvLine.data) :=
            applyRuns_from_header rest rs
        _ = some (CsvLine.header :: (rs :: rest).flatten.map CsvLine.data) := by simp

theorem C10_header_once_witness :
    applyRuns [[(0 : Nat)], []] =
      some (CsvLine.header :: ([[(0 : Nat)], []].flatten.map CsvLine.data)) :=
  C10_header_once.2.2 Nat [[0], []] (by simp)


theorem process_entry_inv (outcome : String → Option (List (String × String)))
    (st : LoopState) (url : String)
    (h1 : (storeIds st.store).Nodup)
    (h2 : ∀ i ∈ storeIds st.store, i ∈ st.done) :
    (storeIds (process_entry outcome st url).store).Nodup ∧
    ∀ i ∈ storeIds (process_entry outcome st url).store,
      i ∈ (process_entry outcome st url).done := by
  by_cases hc : ¬ validUrl url = true ∨ url ∈ st.done
  · simp only [process_entry, if_pos hc]
    exact ⟨h1, h2⟩
  · have hnd : url ∉ st.done := fun hd => hc (Or.inr hd)
    have hni : url ∉ storeIds st.store := fun hin => hnd (h2 url hin)
    simp only [process_entry, if_neg hc]
    constructor
    · simp only [storeIds, List.map_append, List.map_cons, List.map_nil]
      rw [List.nodup_append]
      refine ⟨h1, List.nodup_singleton url, ?_⟩
      intro a ha hb
      simp only [List.mem_singleton] at hb
      subst hb
      exact hni ha
    · intro i hi
      simp only [storeIds, List.map_append, List.map_cons, List.map_nil] at hi
      rcases List.mem_append.mp hi with hm | hm
      · exact List.mem_cons_of_mem url (h2 i hm)
      · simp only [List.mem_singleton] at hm
        rw [hm]
        exact List.mem_cons_self _ _

theorem run_loop_inv (outcome : String → Option (List (String × String))) :
    ∀ (roster : List String) (st : LoopState),
      (storeIds st.store).Nodup →
      (∀ i ∈ storeIds st.store, i ∈ st.done) →
      (storeIds (run_loop outcome st roster).store).Nodup := by
  intro roster
  induction roster with
  | nil => intro st h1 h2; exact h1
  | cons u rest ih =>
    intro st h1 h2
    have hp := process_entry_inv outcome st u h1 h2
    exact ih (process_entry outcome st u) hp.1 hp.2

theorem run_from_store_nodup (outcome : String → Option (List (String × String)))
    (store : List (String × List (String × String)))
    (roster : List String) (k : Nat) (h : (storeIds store).Nodup) :
    (storeIds (run_from_store outcome store roster k)).Nodup :=
  run_loop_inv outcome (roster.take k) { store := store, done := storeIds store }
    h (fun _ hi => hi)

/-- C1 counterexample: the collection loop of alumni_profile_scraper.py
never adds the identifier it has just written to its done set, so one run
over a roster that repeats an identifier (two roster rows differing in a
name column survive drop_duplicates) writes one row per occurrence: the
identifier appears in two rows of the output store, not one. -/
theorem C1_counterexample :
    storeIds (run_loop_profile (fun _ => [])
        { store := [], done := [] } ["http://a", "http://a"]).store =
      ["http://a", "http://a"] ∧
    ¬ (storeIds (run_loop_profile (fun _ => [])
        { store := [], done := [] } ["http://a", "http://a"]).store).Nodup :=
  ⟨rfl, by decide⟩

/-- C1 (amended): in alumni_details_scraper.py and people_alumni_scraper.py
the loop rebuilds its done set from the identifiers already in the store at
run start, skips roster entries whose identifier is in that set, and adds
each written identifier to the set before moving on, so across any number of
interrupted and resumed runs every profile identifier appearing in the store
appears in exactly one row; alumni_profile_scraper.py also skips identifiers
that were in the store at run start, but never adds in-run identifiers to
its done set, so within one run a repeated roster identifier is written once
per occurrence. -/
theorem C1_at_most_once :
    (∀ (outcome : String → Option (List (String × String))) (st : LoopState)
        (url : String), url ∈ st.done → process_entry outcome st url = st) ∧
    (∀ (outcome : String → List (String × String)) (st : LoopState)
        (url : String), url ∈ st.done → process_entry_profile outcome st url = st) ∧
    (∀ (roster : List String)
        (runs : List (Nat × (String → Option (List (String × String))))),
        (storeIds (run_sequence roster runs)).Nodup) := by
  refine ⟨?_, ?_, ?_⟩
  · intro outcome st url h
    simp only [process_entry, if_pos (Or.inr h)]
  · intro outcome st url h
    simp only [process_entry_profile, if_pos h]
  · intro roster runs
    have main : ∀ (rs : List (Nat × (String → Option (List (String × String)))))
        (store : List (String × List (String × String))),
        (storeIds store).Nodup →
        (storeIds (rs.foldl (fun s r => run_from_store r.2 s roster r.1) store)).Nodup := by
      intro rs
      induction rs with
      | nil => intro store h; exact h
      | cons r rest ih =>
        intro store h
        exact ih _ (run_from_store_nodup r.2 store roster r.1 h)
    exact main runs [] (by simp [storeIds])

theorem C1_at_most_once_witness :
    process_entry (fun _ => none) { store := [], done := ["http://x"] } "http://x" =
      { store := [], done := ["http://x"] } :=
  C1_at_most_once.1 (fun _ => none) { store := [], done := ["http://x"] } "http://x"
    (List.mem_singleton.mpr rfl)

/-- C2: when the profile page load of a valid, not-yet-done roster entry
fails (the caught TimeoutException or WebDriverException of the navigation
and scrape step), the loop writes exactly one row for that entry whose
extraction fields are all the empty string, marks the entry done, and
continues with the remaining roster entries, so the failure never terminates
the run. -/
theorem C2_failure_handling :
    ∀ (outcome : String → Option (List (String × String))) (st : LoopState)
      (url : String) (rest : List String),
      validUrl url = true → url ∉ st.done → outcome url = none →
      run_loop outcome st (url :: rest) =
        run_loop outcome
          { store := st.store ++ [(url, out_extraction_cols.map (fun c => (c, "")))],
            done := url :: st.done } rest ∧
      writeRowFields ((outcome url).getD []) =
        out_extraction_cols.map (fun c => (c, "")) ∧
      (∀ p ∈ writeRowFields ((outcome url).getD []), p.2 = "") := by
  intro outcome st url rest hv hnd hout
  have hcond : ¬ (¬ validUrl url = true ∨ url ∈ st.done) := by
    rintro (hbad | hbad)
    · exact hbad hv
    · exact hnd hbad
  have hrow : writeRowFields ((outcome url).getD []) =
      out_extraction_cols.map (fun c => (c, "")) := by
    rw [hout]
    rfl
  have hstep : process_entry outcome st url =
      { store := st.store ++ [(url, out_extraction_cols.map (fun c => (c, "")))],
        done := url :: st.done } := by
    simp only [process_entry, if_neg hcond]
    rw [hrow]
  refine ⟨?_, hrow, ?_⟩
  · simp only [run_loop, List.foldl_cons]
    rw [hstep]
  · intro p hp
    rw [hrow] at hp
    obtain ⟨c, _, rfl⟩ := List.mem_map.mp hp
    rfl

theorem C2_failure_handling_witness :
    run_loop (fun _ => none) { store := [], done := [] } ["http://x"] =
      run_loop (fun _ => none)
        { store := [] ++ [("http://x", out_extraction_cols.map (fun c => (c, "")))],
          done := "http://x" :: [] } [] :=
  (C2_failure_handling (fun _ => none) { store := [], done := [] } "http://x" []
    rfl (by simp) rfl).1

theorem splitSemi_no_sep :
    ∀ (x : List Char), hasSemiSep x = false → ∀ acc, splitSemi acc x = [acc.reverse ++ x] := by
  intro x
  induction x with
  | nil => intro _ acc; simp [splitSemi]
  | cons c rest ih =>
    intro h acc
    match rest with
    | [] => simp [splitSemi]
    | d :: rest2 =>
      have hcond : ¬ (c = ';' ∧ d = ' ') := by
        intro hcd
        simp [hasSemiSep, if_pos hcd] at h
      have htail : hasSemiSep (d :: rest2) = false := by
        simpa [hasSemiSep, if_neg hcond] using h
      simp only [splitSemi, if_neg hcond]
      rw [ih htail (c :: acc)]
      simp

theorem splitSemi_append_sep :
    ∀ (x : List Char), hasSemiSep x = false →
      ∀ (acc rest : List Char),
        splitSemi acc (x ++ ';' :: ' ' :: rest) = (acc.reverse ++ x) :: splitSemi [] rest := by
  intro x
  induction x with
  | nil =>
    intro _ acc rest
    simp [splitSemi]
  | cons c x2 ih =>
    intro h acc rest
    match x2 with
    | [] =>
      have hcond : ¬ (c = ';' ∧ (';' : Char) = ' ') := by
        intro hcd
        exact absurd hcd.2 (by decide)
      simp only [List.nil_append, List.cons_append, splitSemi, if_neg hcond]
      simp
    | d :: x3 =>
      have hcond : ¬ (c = ';' ∧ d = ' ') := by
        intro hcd
        simp [hasSemiSep, if_pos hcd] at h
      have htail : hasSemiSep (d :: x3) = false := by
        simpa [hasSemiSep, if_neg hcond] using h
      simp only [List.cons_append, splitSemi, if_neg hcond]
      rw [List.append_eq]
      have ht := ih htail (c :: acc) rest
      simp only [List.cons_append] at ht
      rw [ht]
      simp

theorem splitSemi_joinSemi :
    ∀ (l : List (List Char)), l ≠ [] → (∀ x ∈ l, hasSemiSep x = false) →
      splitSemi [] (joinSemi l) = l := by
  intro l
  induction l with
  | nil => intro h; exact absurd rfl h
  | cons x tl ih =>
    intro _ hall
    match tl with
    | [] =>
      have := splitSemi_no_sep x (hall x (List.mem_cons_self _ _)) []
      simpa [joinSemi] using this
    | y :: tl2 =>
      have hx : hasSemiSep x = false := hall x (List.mem_cons_self _ _)
      have hjoin : joinSemi (x :: y :: tl2) = x ++ ';' :: ' ' :: joinSemi (y :: tl2) := rfl
      rw [hjoin, splitSemi_append_sep x hx [] (joinSemi (y :: tl2))]
      rw [ih (by simp) (fun z hz => hall z (List.mem_cons_of_mem x hz))]
      simp

theorem dropWhile_append_last (p : Char → Bool) (c : Char) (hc : p c = false) :
    ∀ l : List Char, l.dropWhile p ++ [c] ≠ [] ∧ (l ++ [c]).dropWhile p ≠ [] := by
  intro l
  induction l with
  | nil => simp [List.dropWhile, hc]
  | cons a l2 ih =>
    constructor
    · simp
    · simp only [List.cons_append, List.dropWhile]
      by_cases ha : p a
      · simp only [ha]
        exact ih.2
      · simp [ha]

theorem pyStrip_cons_ne_nil (c : Char) (t : List Char) (hc : isPySpace c = false) :
    pyStrip (c :: t) ≠ [] := by
  simp only [pyStrip, List.dropWhile, hc]
  intro h
  rw [List.reverse_eq_nil_iff] at h
  have h2 : (c :: t).reverse = t.reverse ++ [c] := by simp
  rw [h2] at h
  exact (dropWhile_append_last isPySpace c hc t.reverse).2 h

theorem dropWhile_length_le (p : Char → Bool) (l : List Char) :
    (l.dropWhile p).length ≤ l.length :=
  (List.dropWhile_suffix p).length_le

theorem pyStrip_length_le (l : List Char) : (pyStrip l).length ≤ l.length := by
  simp only [pyStrip, List.length_reverse]
  calc ((l.dropWhile isPySpace).reverse.dropWhile isPySpace).length
      ≤ (l.dropWhile isPySpace).reverse.length := dropWhile_length_le _ _
    _ = (l.dropWhile isPySpace).length := List.length_reverse _
    _ ≤ l.length := dropWhile_length_le _ _

theorem pyStrip_fixed_head (c : Char) (t : List Char) (h : pyStrip (c :: t) = c :: t) :
    isPySpace c = false := by
  by_contra hc
  rw [Bool.not_eq_false] at hc
  have h1 : pyStrip (c :: t) = ((t.dropWhile isPySpace).reverse.dropWhile isPySpace).reverse := by
    simp [pyStrip, List.dropWhile, hc]
  have h2 : (pyStrip (c :: t)).length ≤ t.length := by
    rw [h1]
    simp only [List.length_reverse]
    calc ((t.dropWhile isPySpace).reverse.dropWhile isPySpace).length
        ≤ (t.dropWhile isPySpace).reverse.length := dropWhile_length_le _ _
      _ = (t.dropWhile isPySpace).length := List.length_reverse _
      _ ≤ t.length := dropWhile_length_le _ _
  rw [h] at h2
  simp at h2

theorem map_id_of_mem {α : Type} (f : α → α) :
    ∀ l : List α, (∀ a ∈ l, f a = a) → l.map f = l := by
  intro l
  induction l with
  | nil => intro _; rfl
  | cons a l2 ih =>
    intro h
    simp only [List.map_cons, h a (List.mem_cons_self _ _),
      ih (fun b hb => h b (List.mem_cons_of_mem a hb))]

theorem joinSemi_cons_eq (x : List Char) (tl : List (List Char)) :
    joinSemi (x :: tl) = x ∨ joinSemi (x :: tl) = x ++ ';' :: ' ' :: joinSemi tl := by
  match tl with
  | [] => exact Or.inl rfl
  | y :: tl2 => exact Or.inr rfl

/-- C8: list-valued Vision fields are stored as one string joined with the
semicolon-space delimiter, and exploding such a cell recovers the original
list: for every list of non-empty, delimiter-free, whitespace-trimmed items,
joining then exploding yields exactly the original items in order with
sequence numbers starting at 1, keyed by the profile identifier. -/
theorem C8_join_explode_round_trip :
    ∀ (link : String) (l : List (List Char)),
      (∀ x ∈ l, x ≠ [] ∧ hasSemiSep x = false ∧ pyStrip x = x) →
      explode_cell link (joinSemi l) =
        (l.enumFrom 1).map
          (fun p => { linkedin_profile := link, seq := p.1, value := p.2 }) := by
  intro link l hl
  match l with
  | [] => rfl
  | x :: tl =>
    obtain ⟨hne, hsep, hstrip⟩ := hl x (List.mem_cons_self _ _)
    match x, hne with
    | c :: t, _ =>
      have hc : isPySpace c = false := pyStrip_fixed_head c t hstrip
      have hguard : ¬ (pyStrip (joinSemi ((c :: t) :: tl))).isEmpty = true := by
        rcases joinSemi_cons_eq (c :: t) tl with hj | hj
        · rw [hj]
          simp only [List.isEmpty_iff]
          exact pyStrip_cons_ne_nil c t hc
        · rw [hj]
          simp only [List.cons_append, List.isEmpty_iff]
          exact pyStrip_cons_ne_nil c _ hc
      simp only [explode_cell, if_neg hguard]
      rw [splitSemi_joinSemi ((c :: t) :: tl) (by simp)
        (fun z hz => ((hl z hz).2.1))]
      rw [map_id_of_mem pyStrip ((c :: t) :: tl) (fun z hz => (hl z hz).2.2)]
      rw [List.filter_eq_self.mpr]
      intro z hz
      have hzne := (hl z hz).1
      simp [List.isEmpty_iff, hzne]

theorem C8_join_explode_round_trip_witness :
    explode_cell "profile-1" (joinSemi [['M', 'I', 'T'], ['U', 'C', 'L', 'A']]) =
      ([['M', 'I', 'T'], ['U', 'C', 'L', 'A']].enumFrom 1).map
        (fun p => { linkedin_profile := "profile-1", seq := p.1, value := p.2 }) :=
  C8_join_explode_round_trip "profile-1" [['M', 'I', 'T'], ['U', 'C', 'L', 'A']] (by decide)

theorem firstDigitRun_eq_none (l : List Char) (h : ∀ c ∈ l, c.isDigit = false) :
    firstDigitRun l = none := by
  induction l with
  | nil => rfl
  | cons c cs ih =>
    simp only [firstDigitRun, h c (List.mem_cons_self c cs)]
    exact ih (fun x hx => h x (List.mem_cons_of_mem c hx))

/-- C7: the connection-count cleaner maps "500+" to 500 and "1,234" to 1234
(commas removed, first run of digits taken), and maps every string containing
no digit, including the empty string and "N/A", to None and never to zero. -/
theorem C7_connection_cleaning :
    clean_connections (.str "500+") = some 500 ∧
    clean_connections (.str "1,234") = some 1234 ∧
    clean_connections (.str "") = none ∧
    clean_connections (.str "N/A") = none ∧
    ∀ s : String, (∀ c ∈ s.data, c.isDigit = false) → clean_connections (.str s) = none := by
  refine ⟨rfl, rfl, rfl, rfl, ?_⟩
  intro s h
  simp only [clean_connections]
  rw [firstDigitRun_eq_none]
  intro c hc
  exact h c (List.mem_of_mem_filter hc)

theorem C7_connection_cleaning_witness : clean_connections (.str "x+y") = none :=
  C7_connection_cleaning.2.2.2.2 "x+y" (by decide)

/-- C3 counterexample: in the merge of scrape_profile in
people_alumni_scraper.py the dict is built with the structural result spread
first and the vision payload spread second, so when both channels supply an
email the merged record holds the Vision value, not the Structural one. -/
theorem C3_counterexample :
    scrape_profile_merge_people { profile_pic := "", email := "a@x.com" }
        (fun k => if k = "email" then some "b@y.com" else none) "email" = some "b@y.com" ∧
    domBitsDict { profile_pic := "", email := "a@x.com" } "email" = some "a@x.com" ∧
    ("b@y.com" : String) ≠ "a@x.com" :=
  ⟨rfl, rfl, by decide⟩

/-- C3 (amended): in alumni_details_scraper.py the structural dict is applied
last, so a structural photo or email value always wins there; but in
people_alumni_scraper.py the vision payload is spread last, so whenever the
Vision channel supplies a value for a field the merged record holds the Vision
value, and the Structural value only survives on keys Vision omits. -/
theorem C3_merge_precedence :
    (∀ (vis : String → Option String) (dom : DomBits) (k v : String),
        domBitsDict dom k = some v → scrape_profile_merge_details vis dom k = some v) ∧
    (∀ (dom : DomBits) (vis : String → Option String) (k v : String),
        vis k = some v → scrape_profile_merge_people dom vis k = some v) ∧
    (∀ (dom : DomBits) (vis : String → Option String) (k : String),
        vis k = none → scrape_profile_merge_people dom vis k = domBitsDict dom k) := by
  refine ⟨?_, ?_, ?_⟩
  · intro vis dom k v h
    simp [scrape_profile_merge_details, pyUpdate, h]
  · intro dom vis k v h
    simp [scrape_profile_merge_people, pyUpdate, h]
  · intro dom vis k h
    simp [scrape_profile_merge_people, pyUpdate, h]

theorem C3_merge_precedence_witness :
    scrape_profile_merge_details (fun _ => some "vision-value")
      { profile_pic := "pic.png", email := "a@x.com" } "email" = some "a@x.com" :=
  C3_merge_precedence.1 (fun _ => some "vision-value")
    { profile_pic := "pic.png", email := "a@x.com" } "email" "a@x.com" rfl
